import Mathlib

/-!
Verification development for the runtime identity & interception layer declared
in `src/api/closures.d.ts`, `src/api/debug.d.ts` and `src/api/cache.d.ts`.
The repository ships only type declarations (`.d.ts` files) with documented
contracts; the executable behavior behind each declaration is therefore
modelled here from the specification (and from the declarations' own
documentation where it fixes the contract), as a shallow embedding: state is
passed explicitly, machine values are a tagged union, and fallible operations
return `Except`.
-/

/-- A dynamically typed VM value: the tagged union of literals a slot
(constant, register, upvalue) can hold. -/
inductive Val where
  | nil
  | boolean (b : Bool)
  | num (n : Int)
  | str (s : String)
  | closure (id : Nat)
deriving DecidableEq, Repr

/-- Runtime type tags of `Val`. -/
inductive VType where
  | nil
  | boolean
  | num
  | str
  | closure
deriving DecidableEq, Repr

/-- The runtime type tag of a value. -/
def Val.vtype : Val → VType
  | .nil => .nil
  | .boolean _ => .boolean
  | .num _ => .num
  | .str _ => .str
  | .closure _ => .closure

/-- The error kinds of the interception layer (spec §7). -/
inductive VMError where
  | OutOfRange
  | FrameExpired
  | TypeMismatch
  | UpvalueBudgetExceeded
  | UnsupportedOrigin
  | YieldAcrossNative
deriving DecidableEq, Repr

/-- Closure origin: implemented natively (a C closure) or compiled from Luau
source (an L closure). -/
inductive Origin where
  | native
  | compiled
deriving DecidableEq, Repr

/-- The outcome of running a closure's body on some arguments: it either
returns a value or attempts a cooperative yield. -/
inductive Exec where
  | ret (v : Val)
  | yieldAttempt

/-- Modelled from the spec: the closure data model (§3). The implementations
behind `src/api/closures.d.ts` are not in the repository (only declarations),
so a closure's representation carries its origin, host-created flag, declared
parameter count, variadic flag, upvalue count and a behavior (its body as a
function from arguments to an execution outcome). Identity is the index into
the closure store, kept separate from the representation. -/
structure ClosInfo where
  origin : Origin
  is_host_created : Bool
  arity : Nat
  is_variadic : Bool
  upvalue_count : Nat
  beh : List Val → Exec

/-- Modelled from the spec: the process-wide closure store. `info` maps a
closure identity (a `Nat`) to its current in-place representation; `orig`
records, for a hooked closure, its pre-any-hook representation (the tail of
the hook chain, spec §9); identities `≥ nextId` are unallocated. -/
structure CloState where
  info : Nat → ClosInfo
  orig : Nat → Option ClosInfo
  nextId : Nat

/-- The result the caller of a closure observes. -/
inductive InvokeResult where
  | value (v : Val)
  | suspended
  | err (e : VMError)

/-- Modelled from the spec: invoking a closure runs its current behavior; a
cooperative yield suspends the caller for a compiled closure, but a native
closure must run to completion, so a yield attempt across it raises
`YieldAcrossNative` (spec §4.5, §3 invariant on `origin = Native`). -/
def invoke (st : CloState) (id : Nat) (args : List Val) : InvokeResult :=
  match (st.info id).beh args with
  | .ret v => .value v
  | .yieldAttempt =>
    match (st.info id).origin with
    | .native => .err .YieldAcrossNative
    | .compiled => .suspended

/-- A sequential call: invoking a closure observes a result and leaves the
store untouched (invocation does not mutate the hook table, spec §5). -/
def call (st : CloState) (id : Nat) (args : List Val) : InvokeResult × CloState :=
  (invoke st id args, st)

/-- Modelled from the spec: `hookfunction` (declared in
`src/api/closures.d.ts`, spec §4.4 `install_hook`). If target and replacement
are both compiled closures and the replacement captures more upvalues than the
target, installation fails with `UpvalueBudgetExceeded`; otherwise the
target's in-place representation is rewritten to run the replacement's
behavior, and a fresh trampoline closure carrying the pre-any-hook
representation of the target is returned. -/
def hookfunction (st : CloState) (t r : Nat) :
    Except VMError (Nat × CloState) :=
  if (st.info t).origin = .compiled ∧ (st.info r).origin = .compiled ∧
      (st.info t).upvalue_count < (st.info r).upvalue_count then
    .error .UpvalueBudgetExceeded
  else
    let origInfo := (st.orig t).getD (st.info t)
    let tramp := st.nextId
    .ok (tramp,
      { info := fun i =>
          if i = tramp then { origInfo with is_host_created := true }
          else if i = t then { st.info t with beh := (st.info r).beh }
          else st.info i
        orig := fun i => if i = t then some origInfo else st.orig i
        nextId := st.nextId + 1 })

/-- `iscclosure` from `src/api/closures.d.ts`: true iff the closure is a C
(native) closure. -/
def iscclosure (st : CloState) (f : Nat) : Bool :=
  match (st.info f).origin with
  | .native => true
  | .compiled => false

/-- `islclosure` from `src/api/closures.d.ts`: true iff the closure is a Luau
(compiled) closure. -/
def islclosure (st : CloState) (f : Nat) : Bool :=
  match (st.info f).origin with
  | .native => false
  | .compiled => true

/-- Modelled from the spec: `newcclosure` (declared in
`src/api/closures.d.ts`, spec §4.5 `wrap_native`). Allocates a fresh closure
whose representation copies `fn`'s but whose origin is reported as native and
which is flagged host-created. -/
def newcclosure (st : CloState) (fn : Nat) : Nat × CloState :=
  let w := st.nextId
  (w,
    { st with
        info := fun i =>
          if i = w then
            { st.info fn with origin := .native, is_host_created := true }
          else st.info i
        nextId := st.nextId + 1 })

/-- Lookup at a 1-based index into an ordered slot list; an index outside the
known range fails with `OutOfRange` (spec §4.2). -/
def slotGet {α : Type} (slots : List α) (i : Nat) : Except VMError α :=
  if h : 1 ≤ i ∧ i ≤ slots.length then
    .ok (slots.get ⟨i - 1, by omega⟩)
  else .error .OutOfRange

/-- Write at a 1-based index into an ordered slot list, leaving other slots
unchanged. -/
def slotSet {α : Type} (slots : List α) (i : Nat) (v : α) : List α :=
  slots.set (i - 1) v

/-- Modelled from the spec: a compiled closure's introspectable representation
behind `src/api/debug.d.ts` — an ordered constant table and, following the
shared-cell design of spec §9, the list of arena cells its upvalues point to
(0-based indices into the arena). -/
structure LuauClos where
  constants : List Val
  upcells : List Nat
deriving DecidableEq, Repr

/-- Modelled from the spec: the mutable state the introspection service
operates on — the shared upvalue-cell arena and the live call stack, whose
head is the innermost frame (level 1), each frame an ordered register list
(spec §3 Stack Frame, §9). -/
structure DbgState where
  arena : List Val
  frames : List (List Val)
deriving DecidableEq, Repr

/-- `debug.getconstant` from `src/api/debug.d.ts`: the constant at a 1-based
index, failing with `OutOfRange` outside the table bounds. -/
def getconstant (c : LuauClos) (i : Nat) : Except VMError Val :=
  slotGet c.constants i

/-- Modelled from the spec: `debug.setconstant` (declared in
`src/api/debug.d.ts`). The write requires the new value's runtime type to
match the existing constant's type; a mismatch fails with `TypeMismatch` and
leaves the table unchanged. -/
def setconstant (c : LuauClos) (i : Nat) (v : Val) :
    Except VMError LuauClos :=
  match getconstant c i with
  | .error e => .error e
  | .ok cur =>
    if v.vtype = cur.vtype then
      .ok { c with constants := slotSet c.constants i v }
    else .error .TypeMismatch

/-- `debug.getupvalue` from `src/api/debug.d.ts`: reads the arena cell the
closure's 1-based upvalue index points to. -/
def getupvalue (st : DbgState) (c : LuauClos) (i : Nat) :
    Except VMError Val :=
  match slotGet c.upcells i with
  | .error e => .error e
  | .ok cell =>
    if h : cell < st.arena.length then .ok (st.arena.get ⟨cell, h⟩)
    else .error .OutOfRange

/-- Modelled from the spec: `debug.setupvalue` (declared in
`src/api/debug.d.ts`). Writes the shared arena cell (so every sharer of the
captured variable observes it), requiring the new value's runtime type to
match the cell's current type; a mismatch fails with `TypeMismatch`. -/
def setupvalue (st : DbgState) (c : LuauClos) (i : Nat) (v : Val) :
    Except VMError DbgState :=
  match slotGet c.upcells i with
  | .error e => .error e
  | .ok cell =>
    if h : cell < st.arena.length then
      if v.vtype = (st.arena.get ⟨cell, h⟩).vtype then
        .ok { st with arena := st.arena.set cell v }
      else .error .TypeMismatch
    else .error .OutOfRange

/-- Reads one register of one live frame: level 1 is the innermost activation;
a level that does not denote a live activation fails with `FrameExpired`, a
register index outside the frame fails with `OutOfRange` (spec §4.2). -/
def getstackAt (st : DbgState) (lvl i : Nat) : Except VMError Val :=
  if h : 1 ≤ lvl ∧ lvl ≤ st.frames.length then
    slotGet (st.frames.get ⟨lvl - 1, by omega⟩) i
  else .error .FrameExpired

/-- Modelled from the spec: `debug.setstack` (declared in
`src/api/debug.d.ts`). Writes one register of one live frame, requiring the
new value's runtime type to match the register's current type. -/
def setstack (st : DbgState) (lvl i : Nat) (v : Val) :
    Except VMError DbgState :=
  if h : 1 ≤ lvl ∧ lvl ≤ st.frames.length then
    let regs := st.frames.get ⟨lvl - 1, by omega⟩
    match slotGet regs i with
    | .error e => .error e
    | .ok cur =>
      if v.vtype = cur.vtype then
        .ok { st with frames := slotSet st.frames lvl (slotSet regs i v) }
      else .error .TypeMismatch
  else .error .FrameExpired

/-- The two result shapes of `debug.getstack`: one register, or a snapshot of
the whole frame. -/
inductive StackResult where
  | one (v : Val)
  | whole (regs : List Val)
deriving DecidableEq, Repr

/-- Modelled from the spec: `debug.getstack` (declared in
`src/api/debug.d.ts`). With the index omitted it returns a snapshot of the
entire frame at the given level; a level that no longer denotes a live
activation fails with `FrameExpired`; an index beyond the frame's register
count fails with `OutOfRange`. -/
def getstack (st : DbgState) (lvl : Nat) (idx : Option Nat) :
    Except VMError StackResult :=
  if h : 1 ≤ lvl ∧ lvl ≤ st.frames.length then
    let regs := st.frames.get ⟨lvl - 1, by omega⟩
    match idx with
    | none => .ok (.whole regs)
    | some i =>
      match slotGet regs i with
      | .ok v => .ok (.one v)
      | .error e => .error e
  else .error .FrameExpired

/-- Pops the `n` innermost frames: the activations return and their levels no
longer denote live activations. -/
def popFrames (st : DbgState) (n : Nat) : DbgState :=
  { st with frames := st.frames.drop n }

/-- Modelled from the spec: the subject of `debug.getproto` (declared in
`src/api/debug.d.ts`) — an ordered list of nested prototype descriptor ids
and, per 1-based prototype index, the ids of that prototype's currently active
closures. -/
structure ProtoSubject where
  protos : List Nat
  actives : List (List Nat)
deriving DecidableEq, Repr

/-- The two result shapes of `debug.getproto`: the non-callable descriptor, or
the list of active (callable) closures of the prototype. -/
inductive ProtoResult where
  | descriptor (p : Nat)
  | activeClosures (cs : List Nat)
deriving DecidableEq, Repr

/-- Modelled from the spec: `debug.getproto`. The implementation is not in the
repository; per its declaration's documentation in `src/api/debug.d.ts`, with
`active = true` it returns all active closures of the prototype at the given
1-based index, otherwise the (possibly non-callable) prototype descriptor; an
invalid index fails with `OutOfRange`. -/
def getproto (c : ProtoSubject) (i : Nat) (active : Bool) :
    Except VMError ProtoResult :=
  if h : 1 ≤ i ∧ i ≤ c.protos.length then
    if active then .ok (.activeClosures (c.actives.getD (i - 1) []))
    else .ok (.descriptor (c.protos.get ⟨i - 1, by omega⟩))
  else .error .OutOfRange

/-- Modelled from the spec: `clonefunction` (declared in
`src/api/closures.d.ts`, spec §4.1 `clone`). A compiled closure is duplicated
from its bytecode into a fresh identity with an identical representation;
cloning a native closure fails because its representation cannot be
duplicated. -/
def clonefunction (st : CloState) (fn : Nat) :
    Except VMError (Nat × CloState) :=
  match (st.info fn).origin with
  | .native => .error .UnsupportedOrigin
  | .compiled =>
    let c := st.nextId
    .ok (c,
      { st with
          info := fun i => if i = c then st.info fn else st.info i
          nextId := st.nextId + 1 })

/-- Modelled from the spec: the Instance identity cache behind
`src/api/cache.d.ts` (spec §4.6, §9). Handles are lightweight ids; `referent`
binds each handle to the underlying entity it denotes, `cached` is the
registry's per-handle cached flag, `canonical` is the canonical store mapping
a referent to the handle id the registry hands out for it, `attrs` gives the
readable attribute of each underlying entity, and ids `≥ nextId` are
unallocated. -/
structure CacheState where
  referent : Nat → Nat
  cached : Nat → Bool
  canonical : Nat → Nat
  attrs : Nat → Nat
  nextId : Nat

/-- Modelled from the spec: `cache.invalidate` (declared in
`src/api/cache.d.ts`). Marks the handle's registry entry uncached; the handle
itself (its referent binding and the entity's attributes) is untouched. -/
def invalidate (st : CacheState) (h : Nat) : CacheState :=
  { st with cached := fun j => if j = h then false else st.cached j }

/-- `cache.iscached` from `src/api/cache.d.ts`: the handle's current cached
flag. -/
def iscached (st : CacheState) (h : Nat) : Bool :=
  st.cached h

/-- Modelled from the spec: `cloneref` (declared in `src/api/cache.d.ts`).
Allocates a fresh handle, cached, bound to the same referent as `h`. -/
def cloneref (st : CacheState) (h : Nat) : Nat × CacheState :=
  (st.nextId,
    { st with
        referent := fun j => if j = st.nextId then st.referent h
          else st.referent j
        cached := fun j => if j = st.nextId then true else st.cached j
        nextId := st.nextId + 1 })

/-- `compareinstances` from `src/api/cache.d.ts`: true iff the two handles are
bound to the same referent, regardless of direct (reference) equality. -/
def compareinstances (st : CacheState) (a b : Nat) : Bool :=
  st.referent a == st.referent b

/-- Modelled from the spec: `cache.replace` (declared in
`src/api/cache.d.ts`). Rebinds `h` so its further uses resolve to the
referent of `target`; `target` itself is not mutated. -/
def cacheReplace (st : CacheState) (h target : Nat) : CacheState :=
  { st with
      referent := fun j => if j = h then st.referent target
        else st.referent j }

/-- Modelled from the spec: a canonical-store lookup (the registry side of
`game:GetService(...)`-style accesses against which cached handles compare).
If the canonical handle recorded for the referent is still cached and still
bound to it, that handle is returned; otherwise a fresh cached handle is
allocated and recorded as canonical. -/
def lookupCanonical (st : CacheState) (ref : Nat) : Nat × CacheState :=
  let i := st.canonical ref
  if st.cached i ∧ st.referent i = ref then (i, st)
  else
    (st.nextId,
      { referent := fun j => if j = st.nextId then ref else st.referent j
        cached := fun j => if j = st.nextId then true else st.cached j
        canonical := fun r => if r = ref then st.nextId else st.canonical r
        attrs := st.attrs
        nextId := st.nextId + 1 })

/-- Registry-based equality of a handle against the canonical store: the
handle compares equal (by reference) to what the canonical store currently
returns for its referent. -/
def registryEq (st : CacheState) (h : Nat) : Bool :=
  (lookupCanonical st (st.referent h)).1 == h

/-- Reading an attribute of the underlying entity through a handle. -/
def readAttr (st : CacheState) (h : Nat) : Nat :=
  st.attrs (st.referent h)

/-- The operations that can touch the identity cache after an invalidation
(spec §4.6). -/
inductive CacheOp where
  | inv (h : Nat)
  | look (ref : Nat)
  | clone (h : Nat)
  | repl (h target : Nat)

/-- Applies one cache operation to the registry state. -/
def applyOp (st : CacheState) : CacheOp → CacheState
  | .inv h => invalidate st h
  | .look ref => (lookupCanonical st ref).2
  | .clone h => (cloneref st h).2
  | .repl h target => cacheReplace st h target

/-- Applies a sequence of cache operations in order. -/
def applyOps (st : CacheState) (ops : List CacheOp) : CacheState :=
  ops.foldl applyOp st

/-- A handle that is uncached and was allocated before the registry's current
allocation frontier. -/
def uncachedStale (st : CacheState) (h : Nat) : Prop :=
  st.cached h = false ∧ h < st.nextId

/-- A closure representation with the given origin, upvalue count and body. -/
def mkInfo (o : Origin) (ups : Nat) (b : List Val → Exec) : ClosInfo :=
  { origin := o
    is_host_created := false
    arity := 0
    is_variadic := false
    upvalue_count := ups
    beh := b }

/-- A body that returns the given value on any arguments. -/
def behConst (v : Val) : List Val → Exec := fun _ => .ret v

/-- A concrete closure store: id 0 is a compiled closure with 2 upvalues
returning 10, id 1 a compiled closure with 1 upvalue returning 20, id 2 a
compiled closure that attempts a cooperative yield. -/
def exSt : CloState :=
  { info := fun i =>
      if i = 0 then mkInfo .compiled 2 (behConst (.num 10))
      else if i = 1 then mkInfo .compiled 1 (behConst (.num 20))
      else if i = 2 then mkInfo .compiled 0 (fun _ => .yieldAttempt)
      else mkInfo .compiled 0 (behConst .nil)
    orig := fun _ => none
    nextId := 3 }

/-- A concrete compiled-closure representation for the introspection
theorems. -/
def exClos : LuauClos :=
  { constants := [.nil, .str ("Hello"), .num 3]
    upcells := [1] }

/-- A concrete introspection state: a two-cell upvalue arena and one live
frame with two registers. -/
def exDbg : DbgState :=
  { arena := [.boolean true, .num 7]
    frames := [[.num 4, .str ("x")]] }

/-- A concrete proto subject whose first prototype has two active closures. -/
def protoSubjectTwoActive : ProtoSubject :=
  { protos := [10]
    actives := [[5, 7]] }

/-- A concrete identity-cache state: handles 0 and 1 both denote referent 5,
handle 0 is the canonical cached handle for it. -/
def exCache : CacheState :=
  { referent := fun j => if j = 0 then 5 else if j = 1 then 5 else j
    cached := fun _ => true
    canonical := fun r => if r = 5 then 0 else r
    attrs := fun r => r + 100
    nextId := 2 }

/-- `slotGet` only succeeds inside the 1-based bounds of the slot list. -/
theorem slotGet_bounds {α : Type} {slots : List α} {i : Nat} {x : α}
    (h : slotGet slots i = .ok x) : 1 ≤ i ∧ i ≤ slots.length := by
  unfold slotGet at h
  split at h
  · assumption
  · exact Except.noConfusion h

/-- Writing a slot that reads successfully makes the written value visible on
the next read of the same slot. -/
theorem slotGet_slotSet_self {α : Type} {slots : List α} {i : Nat} {x : α}
    (v : α) (h : slotGet slots i = .ok x) :
    slotGet (slotSet slots i v) i = .ok v := by
  obtain ⟨h1, h2⟩ := slotGet_bounds h
  unfold slotGet slotSet
  rw [dif_pos (by rw [List.length_set]; exact ⟨h1, h2⟩)]
  congr 1
  simp [List.get_eq_getElem, List.getElem_set_self]

/-- Claim C10: for every function value, `iscclosure` and `islclosure` are
complementary — `islclosure` is true exactly when `iscclosure` is false, so
every closure is classified as exactly one of C closure or Luau closure. -/
theorem closure_classification_complementary (st : CloState) (f : Nat) :
    islclosure st f = !iscclosure st f := by
  unfold islclosure iscclosure
  cases (st.info f).origin <;> rfl

/-- Claim C2: hooking a compiled closure with a compiled replacement fails at
install time with `UpvalueBudgetExceeded` when the replacement captures more
upvalues than the target, and succeeds when the replacement's upvalue count is
at most the target's. -/
theorem hookfunction_upvalue_budget (st : CloState) (t r : Nat)
    (hct : (st.info t).origin = .compiled)
    (hcr : (st.info r).origin = .compiled) :
    ((st.info t).upvalue_count < (st.info r).upvalue_count →
      hookfunction st t r = .error .UpvalueBudgetExceeded)
    ∧ ((st.info r).upvalue_count ≤ (st.info t).upvalue_count →
      ∃ p, hookfunction st t r = .ok p) := by
  constructor
  · intro hlt
    unfold hookfunction
    rw [if_pos ⟨hct, hcr, hlt⟩]
  · intro hle
    unfold hookfunction
    rw [if_neg (by rintro ⟨-, -, hlt⟩; omega)]
    exact ⟨_, rfl⟩

/-- Witness for C2 on the concrete store `exSt`: hooking the 1-upvalue
closure with the 2-upvalue one fails with `UpvalueBudgetExceeded`, the other
direction installs. -/
theorem hookfunction_upvalue_budget_witness :
    hookfunction exSt 1 0 = .error .UpvalueBudgetExceeded
    ∧ ∃ p, hookfunction exSt 0 1 = .ok p := by
  constructor
  · exact (hookfunction_upvalue_budget exSt 1 0 rfl rfl).1 (by decide)
  · exact (hookfunction_upvalue_budget exSt 0 1 rfl rfl).2 (by decide)

/-- Claim C1: after a successful `hookfunction` install on an unhooked,
allocated target, the target's behavior is the replacement's behavior (so
every subsequent invocation of the target runs the replacement on the original
arguments), and invoking the returned trampoline runs the target's pre-hook
behavior on whatever arguments the caller passes, across two sequential calls
(the trampoline is stable, not one-shot). -/
theorem hookfunction_trampoline_stable (st st' : CloState) (t r tramp : Nat)
    (a1 a2 : List Val) (ht : t < st.nextId) (hunhooked : st.orig t = none)
    (hinstall : hookfunction st t r = .ok (tramp, st')) :
    (st'.info t).beh = (st.info r).beh
    ∧ (call st' tramp a1).1 = invoke st t a1
    ∧ (call (call st' tramp a1).2 tramp a2).1 = invoke st t a2 := by
  have htne : t ≠ st.nextId := Nat.ne_of_lt ht
  unfold hookfunction at hinstall
  split at hinstall
  · exact Except.noConfusion hinstall
  · simp only [Except.ok.injEq, Prod.mk.injEq] at hinstall
    obtain ⟨htr, hst⟩ := hinstall
    subst htr
    subst hst
    refine ⟨?_, ?_, ?_⟩
    · simp [htne]
    · simp [call, invoke, htne, hunhooked]
    · simp [call, invoke, htne, hunhooked]

/-- Witness for C1 on the concrete store `exSt`: hooking closure 0 with
closure 1 rewires 0 to 1's behavior and yields a trampoline that runs 0's
original behavior twice in a row. -/
theorem hookfunction_trampoline_stable_witness :
    0 < exSt.nextId ∧ exSt.orig 0 = none ∧
    ∃ tramp st', hookfunction exSt 0 1 = .ok (tramp, st')
      ∧ (st'.info 0).beh = (exSt.info 1).beh
      ∧ (call st' tramp [Val.num 1]).1 = invoke exSt 0 [Val.num 1]
      ∧ (call (call st' tramp [Val.num 1]).2 tramp []).1 = invoke exSt 0 [] := by
  obtain ⟨tramp, st', hres⟩ :
      ∃ tramp st', hookfunction exSt 0 1 = .ok (tramp, st') := by
    unfold hookfunction
    rw [if_neg (by decide)]
    exact ⟨_, _, rfl⟩
  obtain ⟨e1, e2, e3⟩ :=
    hookfunction_trampoline_stable exSt st' 0 1 tramp [Val.num 1] []
      (by decide) rfl hres
  exact ⟨by decide, rfl, tramp, st', hres, e1, e2, e3⟩

/-- Claim C4: `newcclosure` produces a closure reported as a C closure whose
invocation still runs the wrapped function's behavior; an attempt by the
wrapped function to cooperatively yield raises `YieldAcrossNative` instead of
suspending the caller. -/
theorem newcclosure_native_wrap (st : CloState) (fn : Nat) (args : List Val)
    (v : Val) :
    iscclosure (newcclosure st fn).2 (newcclosure st fn).1 = true
    ∧ ((st.info fn).beh args = .ret v →
        invoke (newcclosure st fn).2 (newcclosure st fn).1 args = .value v)
    ∧ ((st.info fn).beh args = .yieldAttempt →
        invoke (newcclosure st fn).2 (newcclosure st fn).1 args =
          .err .YieldAcrossNative) := by
  refine ⟨?_, ?_, ?_⟩
  · simp [newcclosure, iscclosure]
  · intro hret
    simp [newcclosure, invoke, hret]
  · intro hy
    simp [newcclosure, invoke, hy]

/-- Witness for C4 on the concrete store `exSt`: wrapping the returning
closure 0 yields a C closure computing 0's result, wrapping the yielding
closure 2 yields a C closure that raises `YieldAcrossNative`. -/
theorem newcclosure_native_wrap_witness :
    iscclosure (newcclosure exSt 0).2 (newcclosure exSt 0).1 = true
    ∧ invoke (newcclosure exSt 0).2 (newcclosure exSt 0).1 [] =
        .value (.num 10)
    ∧ invoke (newcclosure exSt 2).2 (newcclosure exSt 2).1 [] =
        .err .YieldAcrossNative := by
  refine ⟨(newcclosure_native_wrap exSt 0 [] (.num 10)).1,
    (newcclosure_native_wrap exSt 0 [] (.num 10)).2.1 rfl,
    (newcclosure_native_wrap exSt 2 [] .nil).2.2 rfl⟩

/-- Claim C8: cloning an allocated compiled closure succeeds and yields a
closure that is not reference-identical to the original, while invoking the
clone and the original with identical arguments yields identical observable
results. -/
theorem clonefunction_distinct_same_behavior (st : CloState) (fn : Nat)
    (hc : (st.info fn).origin = .compiled) (hal : fn < st.nextId) :
    ∃ c st', clonefunction st fn = .ok (c, st')
      ∧ c ≠ fn
      ∧ ∀ args, invoke st' c args = invoke st' fn args := by
  have hne : fn ≠ st.nextId := Nat.ne_of_lt hal
  refine ⟨st.nextId,
    { st with
        info := fun i => if i = st.nextId then st.info fn else st.info i
        nextId := st.nextId + 1 }, ?_, fun e => hne e.symm, ?_⟩
  · unfold clonefunction
    rw [hc]
  · intro args
    unfold invoke
    simp [hne]

/-- Witness for C8 on the concrete store `exSt`: cloning the compiled closure
0 yields a distinct closure with the same observable result on a sample
argument list. -/
theorem clonefunction_distinct_same_behavior_witness :
    (exSt.info 0).origin = .compiled ∧ 0 < exSt.nextId ∧
    ∃ c st', clonefunction exSt 0 = .ok (c, st')
      ∧ c ≠ 0
      ∧ invoke st' c [Val.num 5] = invoke st' 0 [Val.num 5] := by
  obtain ⟨c, st', h1, h2, h3⟩ :=
    clonefunction_distinct_same_behavior exSt 0 rfl (by decide)
  exact ⟨rfl, by decide, c, st', h1, h2, h3 [Val.num 5]⟩

/-- A successful `getupvalue` exposes the arena cell it read. -/
theorem getupvalue_ok_elim {st : DbgState} {c : LuauClos} {i : Nat} {x : Val}
    (h : getupvalue st c i = .ok x) :
    ∃ cell, slotGet c.upcells i = .ok cell
      ∧ ∃ hlt : cell < st.arena.length, st.arena.get ⟨cell, hlt⟩ = x := by
  unfold getupvalue at h
  split at h
  · exact Except.noConfusion h
  · split at h
    · rename_i cell hget hlt
      exact ⟨cell, hget, hlt, Except.ok.inj h⟩
    · exact Except.noConfusion h

/-- A successful `getstackAt` exposes the live level and the register read. -/
theorem getstackAt_ok_elim {st : DbgState} {lvl i : Nat} {x : Val}
    (h : getstackAt st lvl i = .ok x) :
    ∃ hb : 1 ≤ lvl ∧ lvl ≤ st.frames.length,
      slotGet (st.frames.get ⟨lvl - 1, by omega⟩) i = .ok x := by
  unfold getstackAt at h
  split at h
  · rename_i hb
    exact ⟨hb, h⟩
  · exact Except.noConfusion h

/-- Reading a register of a frame that was just replaced at a live level reads
the replacement frame. -/
theorem getstackAt_set_frame {st : DbgState} {lvl : Nat}
    (hb : 1 ≤ lvl ∧ lvl ≤ st.frames.length) (regs' : List Val) (i : Nat) :
    getstackAt { st with frames := slotSet st.frames lvl regs' } lvl i =
      slotGet regs' i := by
  unfold getstackAt
  rw [dif_pos (by simp only [slotSet, List.length_set]; exact hb)]
  congr 1
  simp [slotSet, List.get_eq_getElem, List.getElem_set_self]

/-- Claim C7: for every slot reachable via `setconstant`, `setstack` or
`setupvalue`, writing a value whose runtime type differs from the slot's
current type fails with `TypeMismatch` (no coercion), while writing a value of
the same type succeeds and is visible on the next read of that slot. -/
theorem set_operations_type_guard (c : LuauClos) (st : DbgState)
    (lvl ic iu ir : Nat) (v cc cu cr : Val)
    (hgc : getconstant c ic = .ok cc)
    (hgu : getupvalue st c iu = .ok cu)
    (hgr : getstackAt st lvl ir = .ok cr) :
    ((v.vtype ≠ cc.vtype → setconstant c ic v = .error .TypeMismatch)
      ∧ (v.vtype = cc.vtype → ∃ c', setconstant c ic v = .ok c'
          ∧ getconstant c' ic = .ok v))
    ∧ ((v.vtype ≠ cu.vtype → setupvalue st c iu v = .error .TypeMismatch)
      ∧ (v.vtype = cu.vtype → ∃ st', setupvalue st c iu v = .ok st'
          ∧ getupvalue st' c iu = .ok v))
    ∧ ((v.vtype ≠ cr.vtype → setstack st lvl ir v = .error .TypeMismatch)
      ∧ (v.vtype = cr.vtype → ∃ st', setstack st lvl ir v = .ok st'
          ∧ getstackAt st' lvl ir = .ok v)) := by
  refine ⟨⟨?_, ?_⟩, ⟨?_, ?_⟩, ⟨?_, ?_⟩⟩
  · intro hne
    unfold setconstant
    rw [hgc]
    simp [hne]
  · intro heq
    refine ⟨{ c with constants := slotSet c.constants ic v }, ?_, ?_⟩
    · unfold setconstant
      rw [hgc]
      simp [heq]
    · exact slotGet_slotSet_self v hgc
  · intro hne
    obtain ⟨cell, hget, hlt, hcell⟩ := getupvalue_ok_elim hgu
    unfold setupvalue
    rw [hget]
    simp only [hlt, dite_true, reduceDIte]
    rw [hcell]
    simp [hne]
  · intro heq
    obtain ⟨cell, hget, hlt, hcell⟩ := getupvalue_ok_elim hgu
    refine ⟨{ st with arena := st.arena.set cell v }, ?_, ?_⟩
    · unfold setupvalue
      rw [hget]
      simp only [hlt, dite_true, reduceDIte]
      rw [hcell]
      simp [heq]
    · unfold getupvalue
      simp only [hget]
      rw [dif_pos (show cell < (st.arena.set cell v).length by
        simpa using hlt)]
      congr 1
      simp [List.get_eq_getElem, List.getElem_set_self]
  · intro hne
    obtain ⟨hb, hslot⟩ := getstackAt_ok_elim hgr
    unfold setstack
    rw [dif_pos hb]
    simp only [hslot]
    simp [hne]
  · intro heq
    obtain ⟨hb, hslot⟩ := getstackAt_ok_elim hgr
    have hlv : lvl - 1 < st.frames.length := by omega
    refine ⟨{ st with frames := slotSet st.frames lvl (slotSet (st.frames.get ⟨lvl - 1, hlv⟩) ir v) }, ?_, ?_⟩
    · unfold setstack
      rw [dif_pos hb]
      simp only [hslot]
      simp [heq]
    · rw [getstackAt_set_frame hb]
      exact slotGet_slotSet_self v hslot

/-- Witness for C7 on the concrete state `exDbg` and closure `exClos`: a
same-typed write to the constant table, the upvalue arena and a live register
is visible on the next read, a cross-typed write fails with `TypeMismatch`. -/
theorem set_operations_type_guard_witness :
    getconstant exClos 2 = .ok (.str ("Hello"))
    ∧ getupvalue exDbg exClos 1 = .ok (.num 7)
    ∧ getstackAt exDbg 1 1 = .ok (.num 4)
    ∧ setconstant exClos 2 (.num 9) = .error .TypeMismatch
    ∧ (∃ c', setconstant exClos 2 (.str ("World")) = .ok c'
        ∧ getconstant c' 2 = .ok (.str ("World")))
    ∧ (∃ st', setupvalue exDbg exClos 1 (.num 8) = .ok st'
        ∧ getupvalue st' exClos 1 = .ok (.num 8))
    ∧ setstack exDbg 1 1 (.str ("no")) = .error .TypeMismatch
    ∧ (∃ st', setstack exDbg 1 1 (.num 6) = .ok st'
        ∧ getstackAt st' 1 1 = .ok (.num 6)) := by
  have hgc : getconstant exClos 2 = .ok (.str ("Hello")) := rfl
  have hgu : getupvalue exDbg exClos 1 = .ok (.num 7) := rfl
  have hgr : getstackAt exDbg 1 1 = .ok (.num 4) := rfl
  obtain ⟨⟨m1, s1⟩, ⟨m2, s2⟩, ⟨m3, s3⟩⟩ :=
    set_operations_type_guard exClos exDbg 1 2 1 1 (.num 9) (.str ("Hello"))
      (.num 7) (.num 4) hgc hgu hgr
  obtain ⟨⟨n1, t1⟩, ⟨n2, t2⟩, ⟨n3, t3⟩⟩ :=
    set_operations_type_guard exClos exDbg 1 2 1 1 (.str ("World"))
      (.str ("Hello")) (.num 7) (.num 4) hgc hgu hgr
  obtain ⟨⟨o1, u1⟩, ⟨o2, u2⟩, ⟨o3, u3⟩⟩ :=
    set_operations_type_guard exClos exDbg 1 2 1 1 (.num 8) (.str ("Hello"))
      (.num 7) (.num 4) hgc hgu hgr
  obtain ⟨⟨p1, q1⟩, ⟨p2, q2⟩, ⟨p3, q3⟩⟩ :=
    set_operations_type_guard exClos exDbg 1 2 1 1 (.str ("no")) (.str ("Hello"))
      (.num 7) (.num 4) hgc hgu hgr
  obtain ⟨⟨w1, x1⟩, ⟨w2, x2⟩, ⟨w3, x3⟩⟩ :=
    set_operations_type_guard exClos exDbg 1 2 1 1 (.num 6) (.str ("Hello"))
      (.num 7) (.num 4) hgc hgu hgr
  exact ⟨hgc, hgu, hgr, m1 (by decide), t1 rfl, u2 rfl, p3 (by decide),
    x3 rfl⟩

/-- Claim C9: `getstack` with the index omitted returns a snapshot of the
entire frame at a live level; a register index beyond the frame's register
count fails with `OutOfRange`; and once the frames at or above the level have
been popped (the activation returned), any access at that level fails with
`FrameExpired`. -/
theorem getstack_contract (st : DbgState) (lvl i n : Nat) (regs : List Val) :
    (st.frames[lvl - 1]? = some regs → 1 ≤ lvl →
        getstack st lvl none = .ok (.whole regs)
        ∧ (regs.length < i → getstack st lvl (some i) = .error .OutOfRange))
    ∧ (st.frames.length < lvl →
        getstack st lvl none = .error .FrameExpired
        ∧ getstack st lvl (some i) = .error .FrameExpired)
    ∧ (st.frames.length < lvl + n →
        getstack (popFrames st n) lvl none = .error .FrameExpired) := by
  refine ⟨?_, ?_, ?_⟩
  · intro hsome h1
    obtain ⟨hlt, hget⟩ := List.getElem?_eq_some.mp hsome
    have hb : 1 ≤ lvl ∧ lvl ≤ st.frames.length := ⟨h1, by omega⟩
    constructor
    · unfold getstack
      rw [dif_pos hb]
      simp [List.get_eq_getElem, hget]
    · intro hbig
      unfold getstack
      rw [dif_pos hb]
      have hregs : st.frames.get ⟨lvl - 1, by omega⟩ = regs := by
        simp [List.get_eq_getElem, hget]
      have hslot : slotGet regs i = .error .OutOfRange := by
        unfold slotGet
        rw [dif_neg (by omega)]
      simp only [hregs, hslot]
  · intro hdead
    have hb : ¬ (1 ≤ lvl ∧ lvl ≤ st.frames.length) := by omega
    constructor <;> (unfold getstack; rw [dif_neg hb])
  · intro hdead
    have hb : ¬ (1 ≤ lvl ∧ lvl ≤ (popFrames st n).frames.length) := by
      simp only [popFrames, List.length_drop]
      omega
    unfold getstack
    rw [dif_neg hb]

/-- Witness for C9 on the concrete state `exDbg`: level 1 is live with a
two-register frame, index 3 is out of range, level 2 is expired, and after
popping the only frame level 1 is expired. -/
theorem getstack_contract_witness :
    getstack exDbg 1 none = .ok (.whole [.num 4, .str ("x")])
    ∧ getstack exDbg 1 (some 3) = .error .OutOfRange
    ∧ getstack exDbg 2 none = .error .FrameExpired
    ∧ getstack (popFrames exDbg 1) 1 none = .error .FrameExpired := by
  obtain ⟨hlive, hdead, hpop⟩ :=
    getstack_contract exDbg 1 3 1 [.num 4, .str ("x")]
  obtain ⟨hdead2, -⟩ := (getstack_contract exDbg 2 0 0 []).2.1 (by decide)
  obtain ⟨hw, ho⟩ := hlive rfl (by decide)
  exact ⟨hw, ho (by decide), hdead2, hpop (by decide)⟩

/-- The claim that `getproto` with `active = true` yields exactly one live
instantiation of the prototype, stated over the model's result type. -/
def getprotoYieldsOne (c : ProtoSubject) (i : Nat) : Prop :=
  ∃ f, getproto c i true = .ok (.activeClosures [f])

/-- Claim C3 counterexample: on a subject whose first prototype has two
active closures, `getproto` with `active = true` returns both of them, not
one live instantiation. -/
theorem getproto_active_returns_all_not_one :
    getproto protoSubjectTwoActive 1 true = .ok (.activeClosures [5, 7])
    ∧ ¬ getprotoYieldsOne protoSubjectTwoActive 1 := by
  constructor
  · rfl
  · rintro ⟨f, hf⟩
    rw [show getproto protoSubjectTwoActive 1 true =
      .ok (.activeClosures [5, 7]) from rfl] at hf
    simp at hf

/-- Claim C3 (amended): for a valid 1-based prototype index, `getproto` with
`active = false` returns the non-callable descriptor at that index and with
`active = true` returns the list of all active closures of that prototype;
every invalid index fails with `OutOfRange`. -/
theorem getproto_contract (c : ProtoSubject) (i : Nat) (p : Nat) :
    (c.protos[i - 1]? = some p → 1 ≤ i →
        getproto c i false = .ok (.descriptor p)
        ∧ getproto c i true =
            .ok (.activeClosures (c.actives.getD (i - 1) [])))
    ∧ (¬ (1 ≤ i ∧ i ≤ c.protos.length) →
        ∀ a, getproto c i a = .error .OutOfRange) := by
  constructor
  · intro hsome h1
    obtain ⟨hlt, hget⟩ := List.getElem?_eq_some.mp hsome
    have hb : 1 ≤ i ∧ i ≤ c.protos.length := ⟨h1, by omega⟩
    constructor
    · unfold getproto
      rw [dif_pos hb]
      simp [List.get_eq_getElem, hget]
    · unfold getproto
      rw [dif_pos hb]
      simp
  · intro hb a
    unfold getproto
    rw [dif_neg hb]

/-- Witness for C3 (amended) on the concrete subject
`protoSubjectTwoActive`: index 1 yields the descriptor and the active list,
index 2 fails with `OutOfRange`. -/
theorem getproto_contract_witness :
    getproto protoSubjectTwoActive 1 false = .ok (.descriptor 10)
    ∧ getproto protoSubjectTwoActive 1 true = .ok (.activeClosures [5, 7])
    ∧ getproto protoSubjectTwoActive 2 true = .error .OutOfRange := by
  obtain ⟨hok, -⟩ := getproto_contract protoSubjectTwoActive 1 10
  obtain ⟨hd, ha⟩ := hok rfl (by decide)
  obtain ⟨-, hbad⟩ := getproto_contract protoSubjectTwoActive 2 0
  exact ⟨hd, ha, hbad (by decide) true⟩

/-- Claim C5: the handle produced by `cloneref` is distinct from the original
under direct (reference) equality, yet `compareinstances` reports them equal,
because both are bound to the same referent. -/
theorem cloneref_distinct_but_same_instance (st : CacheState) (h : Nat)
    (hal : h < st.nextId) :
    (cloneref st h).1 ≠ h
    ∧ compareinstances (cloneref st h).2 h (cloneref st h).1 = true := by
  have hne : h ≠ st.nextId := Nat.ne_of_lt hal
  constructor
  · exact fun e => hne e.symm
  · simp [cloneref, compareinstances, hne]

/-- Witness for C5 on the concrete registry `exCache`: the clone of handle 0
is a different handle that `compareinstances` reports equal to it. -/
theorem cloneref_distinct_but_same_instance_witness :
    0 < exCache.nextId
    ∧ (cloneref exCache 0).1 ≠ 0
    ∧ compareinstances (cloneref exCache 0).2 0 (cloneref exCache 0).1 =
        true := by
  obtain ⟨h1, h2⟩ := cloneref_distinct_but_same_instance exCache 0 (by decide)
  exact ⟨by decide, h1, h2⟩

/-- No cache operation re-caches an uncached stale handle or moves the
allocation frontier behind it. -/
theorem uncachedStale_applyOp {st : CacheState} {h : Nat} (op : CacheOp)
    (hP : uncachedStale st h) : uncachedStale (applyOp st op) h := by
  obtain ⟨hc, hn⟩ := hP
  have hne : h ≠ st.nextId := Nat.ne_of_lt hn
  cases op with
  | inv h' =>
    refine ⟨?_, ?_⟩
    · by_cases e : h = h' <;> simp [applyOp, invalidate, e, hc]
    · simpa [applyOp, invalidate] using hn
  | look ref =>
    simp only [applyOp, lookupCanonical]
    split
    · exact ⟨hc, hn⟩
    · exact ⟨by simp [hne, hc], Nat.lt_succ_of_lt hn⟩
  | clone h' =>
    refine ⟨?_, ?_⟩
    · simp [applyOp, cloneref, hne, hc]
    · exact Nat.lt_succ_of_lt hn
  | repl h' t' =>
    exact ⟨hc, hn⟩

/-- No sequence of cache operations re-caches an uncached stale handle. -/
theorem uncachedStale_applyOps {st : CacheState} {h : Nat}
    (ops : List CacheOp) (hP : uncachedStale st h) :
    uncachedStale (applyOps st ops) h := by
  induction ops generalizing st with
  | nil => exact hP
  | cons op rest ih =>
    exact ih (uncachedStale_applyOp op hP)

/-- An uncached stale handle never compares equal to what the canonical store
returns for its referent. -/
theorem registryEq_false_of_uncachedStale {st : CacheState} {h : Nat}
    (hP : uncachedStale st h) : registryEq st h = false := by
  obtain ⟨hc, hn⟩ := hP
  simp only [registryEq, lookupCanonical]
  split
  · rename_i hcond
    simp only [beq_eq_false_iff_ne, ne_eq]
    intro e
    rw [e, hc] at hcond
    exact Bool.noConfusion hcond.1
  · simp only [beq_eq_false_iff_ne, ne_eq]
    omega

/-- Claim C6: after `invalidate`, the handle reports uncached, every
subsequent registry-based equality comparison against the canonical store
fails no matter which cache operations run in between, while the handle's
attributes remain readable and `compareinstances` still relates the handle to
itself. -/
theorem invalidate_contract (st : CacheState) (h : Nat)
    (hal : h < st.nextId) :
    iscached (invalidate st h) h = false
    ∧ (∀ ops, registryEq (applyOps (invalidate st h) ops) h = false)
    ∧ readAttr (invalidate st h) h = readAttr st h
    ∧ compareinstances (invalidate st h) h h = true := by
  have hP : uncachedStale (invalidate st h) h := by
    exact ⟨by simp [invalidate], hal⟩
  refine ⟨by simp [iscached, invalidate], ?_, rfl, ?_⟩
  · intro ops
    exact registryEq_false_of_uncachedStale (uncachedStale_applyOps ops hP)
  · simp [compareinstances, invalidate]

/-- Witness for C6 on the concrete registry `exCache`: after invalidating
handle 0, it reports uncached, a canonical lookup for its referent no longer
compares equal to it (both immediately and after a further lookup), its
attribute stays readable, and `compareinstances` still relates it to
itself. -/
theorem invalidate_contract_witness :
    0 < exCache.nextId
    ∧ iscached (invalidate exCache 0) 0 = false
    ∧ registryEq (applyOps (invalidate exCache 0) []) 0 = false
    ∧ registryEq (applyOps (invalidate exCache 0) [CacheOp.look 5]) 0 = false
    ∧ readAttr (invalidate exCache 0) 0 = readAttr exCache 0
    ∧ compareinstances (invalidate exCache 0) 0 0 = true := by
  obtain ⟨h1, h2, h3, h4⟩ := invalidate_contract exCache 0 (by decide)
  exact ⟨by decide, h1, h2 [], h2 [CacheOp.look 5], h3, h4⟩
